import Mathlib

/-!
# Verification of the Playwright Slack-automation repository

Shallow embedding of the repository's credential-acquisition pipeline:

* `src/captcha/providers/solvecaptcha-provider.ts` and the Capsolver
  provider (identical polling algorithm): `solveCaptcha`;
* `src/cookies/transformer.ts`: `mapSameSiteValue`, `transformCookie`;
* `src/slack-api/auth.ts`: `extractTokenFromFormData`,
  `interceptSlackAuthWithCookies`;
* `src/email-verification/code-extractor.ts` and `pollForSlackCode`;
* `src/getSlackCode.ts`: `clickWorkspace`, `handleSlackLoginFlow`.

JavaScript strings are modelled as Lean `String`/`List Char`; JS numbers
carrying timestamps as `Int`/`Rat`; exceptions as explicit outcome types.
-/

namespace PW

/-! ## Captcha data model (src/captcha/types.ts) -/

/-- `CaptchaTaskStatus = 'idle' | 'processing' | 'ready'`. -/
inductive CaptchaTaskStatus
  | idle
  | processing
  | ready
  deriving DecidableEq, Repr

/-- `CaptchaSolution` from src/captcha/types.ts (the `additionalData`
record is irrelevant to every claim and omitted). -/
structure CaptchaSolution where
  gRecaptchaResponse : String
  userAgent : Option String
  deriving DecidableEq, Repr

/-- `CaptchaTaskResult` from src/captcha/types.ts. -/
structure CaptchaTaskResult where
  errorId : Int
  errorCode : Option String
  errorDescription : Option String
  status : CaptchaTaskStatus
  solution : Option CaptchaSolution
  deriving DecidableEq, Repr

/-- `CreateTaskResponse` from src/captcha/types.ts. -/
structure CreateTaskResponse where
  errorId : Int
  errorCode : Option String
  errorDescription : Option String
  taskId : Option String
  deriving DecidableEq, Repr

/-- JavaScript `a || b` on an optional string: an absent or empty string
falls through to the default (empty strings are falsy in JS). -/
def jsOrStr (a : Option String) (b : String) : String :=
  match a with
  | some s => if s = "" then b else s
  | none => b

/-- Outcome of `solveCaptcha`: either the returned solution or the message
of the thrown `Error`. -/
inductive SolveOutcome
  | success (s : CaptchaSolution)
  | failure (msg : String)
  deriving DecidableEq, Repr

/-- The polling loop of `SolveCaptchaProvider.solveCaptcha` /
`CapsolverProvider.solveCaptcha` (step 2 of both, identical up to the
provider name in messages).  `results i` is the response of the
`(i+1)`-th `getTaskResult` call.  Returns the outcome together with the
total number of `getTaskResult` calls performed. -/
def pollLoop (providerName : String) (results : Nat → CaptchaTaskResult)
    (taskId : String) (maxAttempts : Nat) (attempts : Nat) :
    SolveOutcome × Nat :=
  if h : attempts < maxAttempts then
    let r := results attempts
    if r.status = CaptchaTaskStatus.ready then
      if r.errorId = 1 then
        (SolveOutcome.failure
          (providerName ++ " task failed: " ++
            jsOrStr r.errorDescription (jsOrStr r.errorCode "Unknown error")),
          attempts + 1)
      else if r.errorId = 0 then
        match r.solution with
        | some s => (SolveOutcome.success s, attempts + 1)
        | none => pollLoop providerName results taskId maxAttempts (attempts + 1)
      else
        pollLoop providerName results taskId maxAttempts (attempts + 1)
    else
      pollLoop providerName results taskId maxAttempts (attempts + 1)
  else
    (SolveOutcome.failure
      ("Task " ++ taskId ++ " timed out after " ++ toString maxAttempts ++
        " attempts"),
      attempts)
termination_by maxAttempts - attempts

/-- `solveCaptcha` of both providers (they share this body verbatim, with
`providerName` "SolveCaptcha" resp. "Capsolver"): step 1 checks the
creation response, step 2 polls.  The backend is modelled by the creation
response it returns plus the sequence of `getTaskResult` responses.
The second component counts `getTaskResult` calls. -/
def solveCaptcha (providerName : String) (createResponse : CreateTaskResponse)
    (results : Nat → CaptchaTaskResult) (maxAttempts : Nat) :
    SolveOutcome × Nat :=
  if createResponse.errorId ≠ 0 then
    (SolveOutcome.failure
      ("Failed to create " ++ providerName ++ " task: " ++
        jsOrStr createResponse.errorDescription
          (jsOrStr createResponse.errorCode "Unknown error")),
      0)
  else
    match createResponse.taskId with
    | none => (SolveOutcome.failure ("No task ID returned from " ++ providerName), 0)
    | some tid =>
        if tid = "" then
          (SolveOutcome.failure ("No task ID returned from " ++ providerName), 0)
        else
          pollLoop providerName results tid maxAttempts 0

/-- A `CaptchaTaskResult` is terminal for the polling loop exactly when it
is ready-with-error or ready-with-a-solution (the conditions on which the
loop in the source returns respectively throws). -/
def isTerminal (r : CaptchaTaskResult) : Prop :=
  r.status = CaptchaTaskStatus.ready ∧
    (r.errorId = 1 ∨ (r.errorId = 0 ∧ r.solution.isSome))

instance (r : CaptchaTaskResult) : Decidable (isTerminal r) := by
  unfold isTerminal; infer_instance

/-! ## Cookie transformer (src/cookies/transformer.ts) -/

/-- Playwright's `sameSite` enumeration. -/
inductive PwSameSite
  | Strict
  | Lax
  | NoneMode
  deriving DecidableEq, Repr

/-- `RawCookie` (zod schema in src/cookie-management/makeCookiesLoader.ts):
`expirationDate` is an optional JS number, modelled as `Option Rat`. -/
structure RawCookie where
  domain : String
  expirationDate : Option Rat
  hostOnly : Bool
  httpOnly : Bool
  name : String
  path : String
  sameSite : String
  secure : Bool
  session : Bool
  storeId : String
  value : String
  deriving DecidableEq, Repr

/-- `PlaywrightCookie` as built by `transformCookie` (the optional fields
the transformer never sets are omitted). -/
structure PlaywrightCookie where
  name : String
  value : String
  domain : String
  path : String
  expires : Option Int
  httpOnly : Bool
  secure : Bool
  sameSite : PwSameSite
  deriving DecidableEq, Repr

/-- `mapSameSiteValue` from src/cookies/transformer.ts. -/
def mapSameSiteValue (sameSite : String) : PwSameSite :=
  if sameSite = "strict" then PwSameSite.Strict
  else if sameSite = "lax" then PwSameSite.Lax
  else if sameSite = "no_restriction" then PwSameSite.NoneMode
  else if sameSite = "unspecified" then PwSameSite.Lax
  else PwSameSite.Lax

/-- `transformCookie` from src/cookies/transformer.ts.  The source guards
the `expires` field with JS truthiness `if (cookie.expirationDate)`, so an
absent or zero `expirationDate` leaves `expires` unset; otherwise
`Math.floor` is applied. -/
def transformCookie (cookie : RawCookie) : PlaywrightCookie :=
  { name := cookie.name
    value := cookie.value
    domain := cookie.domain
    path := cookie.path
    httpOnly := cookie.httpOnly
    secure := cookie.secure
    sameSite := mapSameSiteValue cookie.sameSite
    expires :=
      match cookie.expirationDate with
      | some e => if e = 0 then none else some ⌊e⌋
      | none => none }

/-! ## xoxc token matching (src/slack-api/auth.ts)

`XOXC_TOKEN_REGEX = /xoxc-[0-9]+-[0-9]+-[0-9]+-[0-9a-z]{64}/`.
The regex is deterministic once a start position is fixed: each `[0-9]+`
is a maximal digit run (a shorter run would have to be followed by a
digit, not the required dash), and `[0-9a-z]{64}` consumes exactly 64
characters.  The matcher below therefore implements exactly the JS
engine's leftmost-match semantics. -/

def isDigitCh (c : Char) : Bool := '0' ≤ c && c ≤ '9'

def isLowerAlnum (c : Char) : Bool := isDigitCh c || ('a' ≤ c && c ≤ 'z')

/-- Consume a literal, returning the rest. -/
def pLit : List Char → List Char → Option (List Char)
  | [], s => some s
  | _ :: _, [] => none
  | c :: cs, d :: ds => if c = d then pLit cs ds else none

/-- Maximal run of decimal digits (the span of `[0-9]+` before a
required delimiter): returns (run, rest). -/
def takeDigits : List Char → List Char × List Char
  | [] => ([], [])
  | c :: t =>
      if isDigitCh c then
        let p := takeDigits t
        (c :: p.1, p.2)
      else ([], c :: t)

/-- `[0-9]+-`: a nonempty maximal digit run followed by a dash; returns
(consumed including the dash, rest). -/
def pGroupDash (s : List Char) : Option (List Char × List Char) :=
  let p := takeDigits s
  match p.1, p.2 with
  | [], _ => none
  | _ :: _, '-' :: r => some (p.1 ++ ['-'], r)
  | _ :: _, _ => none

/-- `[0-9a-z]{64}`: exactly 64 characters of the class; returns
(consumed, rest). -/
def pClass64 : Nat → List Char → Option (List Char × List Char)
  | 0, s => some ([], s)
  | _ + 1, [] => none
  | n + 1, c :: t =>
      if isLowerAlnum c then
        match pClass64 n t with
        | some (a, r) => some (c :: a, r)
        | none => none
      else none

/-- Match `XOXC_TOKEN_REGEX` anchored at the start of `s`: returns
(matched characters, rest) on success. -/
def xoxcParseAt (s : List Char) : Option (List Char × List Char) :=
  match pLit "xoxc-".data s with
  | none => none
  | some r0 =>
    match pGroupDash r0 with
    | none => none
    | some (g1, r1) =>
      match pGroupDash r1 with
      | none => none
      | some (g2, r2) =>
        match pGroupDash r2 with
        | none => none
        | some (g3, r3) =>
          match pClass64 64 r3 with
          | none => none
          | some (t, r4) => some ("xoxc-".data ++ g1 ++ g2 ++ g3 ++ t, r4)

/-- Leftmost match of `XOXC_TOKEN_REGEX` in `s` (JS `String.match`
semantics for a non-global regex: the matched substring). -/
def xoxcSearch : List Char → Option (List Char)
  | [] => none
  | c :: t =>
      match xoxcParseAt (c :: t) with
      | some p => some p.1
      | none => xoxcSearch t

/-- JS `XOXC_TOKEN_REGEX.test(s)`: the (unanchored) regex matches
somewhere in `s`. -/
def xoxcTest (s : String) : Bool := (xoxcSearch s.data).isSome

/-- The spec's token-format conformance, written from the spec's words:
the WHOLE string is `xoxc-` followed by three dash-separated digit groups
and 64 lowercase alphanumerics (the anchored reading of the pattern).
Stated as: the anchored matcher consumes the entire string. -/
def specTokenConforms (s : String) : Bool :=
  match xoxcParseAt s.data with
  | some (m, r) => m = s.data && r = []
  | none => false

/-! ### URLSearchParams model

`new URLSearchParams(body).get('token')`: strip one leading `?`, split on
`&`, drop empty segments, split each segment at its first `=` (value `""`
when absent), percent-decode with `+` as space, and return the first
value whose decoded name is `token`. -/

def isHexDigit (c : Char) : Bool :=
  isDigitCh c || ('a' ≤ c && c ≤ 'f') || ('A' ≤ c && c ≤ 'F')

def hexVal (c : Char) : Nat :=
  if isDigitCh c then c.toNat - '0'.toNat
  else if 'a' ≤ c && c ≤ 'f' then c.toNat - 'a'.toNat + 10
  else c.toNat - 'A'.toNat + 10

/-- Percent-decoding with `+` → space.  Decoded bytes below 0x80 agree
with the real UTF-8 decoding; higher bytes yield non-ASCII characters in
both (none of which belong to any character class used by the token
regexes). -/
def urlDecode : List Char → List Char
  | [] => []
  | '+' :: t => ' ' :: urlDecode t
  | '%' :: a :: b :: t =>
      if isHexDigit a && isHexDigit b then
        Char.ofNat (16 * hexVal a + hexVal b) :: urlDecode t
      else '%' :: urlDecode (a :: b :: t)
  | c :: t => c :: urlDecode t

/-- Split on `&`. -/
def splitAmp : List Char → List (List Char)
  | [] => [[]]
  | '&' :: t => [] :: splitAmp t
  | c :: t =>
      match splitAmp t with
      | [] => [[c]]
      | seg :: rest => (c :: seg) :: rest

/-- Split a segment at its first `=` (name, value). -/
def splitFirstEq : List Char → List Char × List Char
  | [] => ([], [])
  | '=' :: t => ([], t)
  | c :: t =>
      let p := splitFirstEq t
      (c :: p.1, p.2)

/-- `new URLSearchParams(body).get(key)` (decoded). -/
def urlParamsGet (body : List Char) (key : List Char) : Option (List Char) :=
  let body' := match body with
    | '?' :: t => t
    | b => b
  let segs := (splitAmp body').filter (fun seg => seg ≠ [])
  let pairs := segs.map (fun seg =>
    let p := splitFirstEq seg
    (urlDecode p.1, urlDecode p.2))
  (pairs.find? (fun p => p.1 = key)).map Prod.snd

/-! ### Multipart branch

JS regex `/name="token"[\s\S]*?\r?\n\r?\n(xoxc-[^\r\n]+)/` with lazy gap:
the engine anchors at the first occurrence of `name="token"`, then finds
the earliest later position where one of the four `\r?\n\r?\n` spellings
(tried in the engine's backtracking order) is followed by `xoxc-` and at
least one non-CR-LF character; the capture group takes the maximal
non-CR-LF run.  A later `name="token"` occurrence can never produce a
match the first one cannot reach, since the gap is unbounded. -/

/-- Rest of `s` after the first occurrence of (nonempty) `lit`. -/
def dropAfterLit (lit : List Char) : List Char → Option (List Char)
  | [] => none
  | c :: t =>
      if lit.isPrefixOf (c :: t) then some ((c :: t).drop lit.length)
      else dropAfterLit lit t

/-- JS `String.includes` for a nonempty needle. -/
def containsLit (lit : List Char) (s : List Char) : Bool :=
  (dropAfterLit lit s).isSome

def isNotCRLF (c : Char) : Bool := c ≠ '\r' && c ≠ '\n'

/-- Maximal run of non-CR-LF characters (span of `[^\r\n]+`). -/
def takeNotCRLF : List Char → List Char × List Char
  | [] => ([], [])
  | c :: t =>
      if isNotCRLF c then
        let p := takeNotCRLF t
        (c :: p.1, p.2)
      else ([], c :: t)

/-- `xoxc-[^\r\n]+` anchored at the start of `s`: the capture group. -/
def multiTailParse (s : List Char) : Option (List Char) :=
  match pLit "xoxc-".data s with
  | none => none
  | some r =>
      match takeNotCRLF r with
      | ([], _) => none
      | (run, _) => some ("xoxc-".data ++ run)

/-- The four spellings of `\r?\n\r?\n` in backtracking-preference order. -/
def blankVariants : List (List Char) :=
  [['\r', '\n', '\r', '\n'], ['\r', '\n', '\n'], ['\n', '\r', '\n'], ['\n', '\n']]

/-- Try each blank-line spelling at the current position, followed by the
capture group. -/
def tryVariants : List (List Char) → List Char → Option (List Char)
  | [], _ => none
  | v :: vs, s =>
      if v.isPrefixOf s then
        match multiTailParse (s.drop v.length) with
        | some cap => some cap
        | none => tryVariants vs s
      else tryVariants vs s

/-- Earliest position where `\r?\n\r?\n(xoxc-[^\r\n]+)` matches; returns
the capture group. -/
def scanBlankXoxc : List Char → Option (List Char)
  | [] => none
  | c :: t =>
      match tryVariants blankVariants (c :: t) with
      | some cap => some cap
      | none => scanBlankXoxc t

/-- JS `\s` whitespace class restricted to the characters that can occur
here (ASCII whitespace; the capture contains no CR/LF). -/
def isJsWs (c : Char) : Bool :=
  c = ' ' || c = '\t' || c = '\n' || c = '\r' ||
    c = Char.ofNat 11 || c = Char.ofNat 12

/-- JS `String.trim` on the character list. -/
def trimWs (s : List Char) : List Char :=
  ((s.dropWhile isJsWs).reverse.dropWhile isJsWs).reverse

/-- The multipart branch of `extractTokenFromFormData`: the value of
`formData.match(/name="token"[\s\S]*?\r?\n\r?\n(xoxc-[^\r\n]+)/)?.[1]`,
trimmed. -/
def multipartTokenCapture (d : List Char) : Option (List Char) :=
  match dropAfterLit "name=\x22token\x22".data d with
  | none => none
  | some rest => (scanBlankXoxc rest).map trimWs

/-- The URL-encoded and multipart branches of `extractTokenFromFormData`:
the URL-encoded branch runs when the body contains `=` but not
`Content-Disposition` and returns the decoded `token` parameter when it
passes `XOXC_TOKEN_REGEX.test`; the multipart branch runs when the body
contains `Content-Disposition` and returns the trimmed capture when it
passes the test.  A `none` here falls through to the direct-regex
fallback. -/
def tokenBranch (d : List Char) : Option (List Char) :=
  if containsLit "=".data d && !containsLit "Content-Disposition".data d then
    match urlParamsGet d "token".data with
    | some tok => if (xoxcSearch tok).isSome then some tok else none
    | none => none
  else if containsLit "Content-Disposition".data d then
    match multipartTokenCapture d with
    | some cap => if (xoxcSearch cap).isSome then some cap else none
    | none => none
  else none

/-- `extractTokenFromFormData` from src/slack-api/auth.ts.  Exceptions
cannot occur in the translated operations, so the `catch` branch (which
would also end in `return null`) is not reachable; the embedding is a
total function and a failed extraction is the `none` value. -/
def extractTokenFromFormData (formData : String) : Option String :=
  if formData = "" then none
  else
    match tokenBranch formData.data with
    | some tok => some (String.mk tok)
    | none => (xoxcSearch formData.data).map String.mk

/-- The per-request decision of the `page.route` handler installed by
`interceptSlackAuthWithCookies`: a request body resolves the token
promise exactly when `extractTokenFromFormData` yields a token starting
with `xoxc-`; any other body leaves the promise pending. -/
def interceptAccepts (formData : Option String) : Option String :=
  match formData with
  | some fd =>
      match extractTokenFromFormData fd with
      | some t => if "xoxc-".data.isPrefixOf t.data then some t else none
      | none => none
  | none => none

/-- The token promise over a sequence of observed request bodies: it
resolves with the first accepted token and otherwise keeps waiting
(`none`). -/
def captureFirstToken : List (Option String) → Option String
  | [] => none
  | r :: rs =>
      match interceptAccepts r with
      | some t => some t
      | none => captureFirstToken rs

/-! ## Email verification code extraction
(src/email-verification/code-extractor.ts and `pollForSlackCode`)

`slackCodePattern = /([A-Z0-9]{3}-[A-Z0-9]{2,3})/`; the `{2,3}` is
greedy, so at a fixed start the match takes a third trailing class
character when present. -/

def isUpperAlnum (c : Char) : Bool := isDigitCh c || ('A' ≤ c && c ≤ 'Z')

/-- Match the code pattern anchored at the start of `s`. -/
def codeParseAt (s : List Char) : Option (List Char) :=
  match s with
  | a :: b :: c :: '-' :: d :: e :: rest =>
      if isUpperAlnum a && isUpperAlnum b && isUpperAlnum c &&
          isUpperAlnum d && isUpperAlnum e then
        match rest with
        | f :: _ =>
            if isUpperAlnum f then some [a, b, c, '-', d, e, f]
            else some [a, b, c, '-', d, e]
        | [] => some [a, b, c, '-', d, e]
      else none
  | _ => none

/-- Leftmost match of the code pattern. -/
def codeSearch : List Char → Option (List Char)
  | [] => none
  | c :: t =>
      match codeParseAt (c :: t) with
      | some m => some m
      | none => codeSearch t

/-- `extractCodeFromMessage`, with the message body modelled as the
already-decoded text `getEmailBody` produces (base64 decoding and
multipart concatenation are outside the claims). -/
def extractCodeFromBody (body : String) : Option String :=
  (codeSearch body.data).map String.mk

/-- The spec's anchored pattern `^[A-Z0-9]{3}-[A-Z0-9]{2,3}$`, written
from the spec's words: the anchored matcher consumes the whole string. -/
def specCodeConforms (s : String) : Bool :=
  match codeParseAt s.data with
  | some m => m = s.data
  | none => false

/-- A candidate Gmail message as `pollForSlackCode` sees it:
`internalDate` in UTC milliseconds, and the decoded body text. -/
structure GmailMessage where
  internalDate : Int
  body : String

/-- One pass of `pollForSlackCode` over the fetched candidate messages:
a message is inspected for a code only when `isAfter(internalDate,
searchAfterTimestamp)` (strictly after); the first eligible message
whose body yields a code returns that code. -/
def pollScanMessages (notBefore : Int) : List GmailMessage → Option String
  | [] => none
  | m :: rest =>
      if notBefore < m.internalDate then
        match extractCodeFromBody m.body with
        | some code => some code
        | none => pollScanMessages notBefore rest
      else pollScanMessages notBefore rest

/-! ## Login flow controller (src/getSlackCode.ts)

The Playwright page is modelled as an oracle environment recording which
DOM probes succeed, whether each click attempt's verification race
(`verifyWorkspaceClickSucceeded`: URL change or a post-login marker
within the bounded timeout) observes a change, and the workspace titles
visible on the page. -/

/-- Outcome of `clickWorkspace`: normal return, the initial
`waitForSelector` timeout rethrown, or the final diagnostic error. -/
inductive ClickOutcome
  | ok
  | listTimeout
  | failed (msg : String)
  deriving DecidableEq, Repr

/-- Page environment for one `clickWorkspace` run.  `verify k` is the
result of `verifyWorkspaceClickSucceeded` for the `(k+1)`-th click
actually performed.  The `Visible`/`Enabled` pairs model the
`waitFor({state:'visible'})` probe and `isEnabled()` check of the
corresponding selector strategy. -/
structure ClickEnv where
  listMarkerAppears : Bool
  ariaCount : Nat
  titleCount : Nat
  directVisible : Bool
  directEnabled : Bool
  genericVisible : Bool
  genericEnabled : Bool
  ctxVisible : Bool
  ctxEnabled : Bool
  roleVisible : Bool
  roleEnabled : Bool
  qaVisible : Bool
  qaEnabled : Bool
  verify : Nat → Bool
  titles : List String

/-- Whether each of the seven selector strategies, in source order,
reaches its `click()` call: (1) aria-label match, (2) title match with
ancestor-link click, (3a) direct class selector, (3b) generic
`Authenticate` button, (3c) contextual button, (3d) role lookup,
(3d') data-qa lookup.  Strategies 3a-3d' click only when the element is
visible and enabled; 1 and 2 click when the locator count is positive. -/
def availList (env : ClickEnv) : List Bool :=
  [decide (0 < env.ariaCount),
   decide (0 < env.titleCount),
   env.directVisible && env.directEnabled,
   env.genericVisible && env.genericEnabled,
   env.ctxVisible && env.ctxEnabled,
   env.roleVisible && env.roleEnabled,
   env.qaVisible && env.qaEnabled]

/-- Walk the strategies: a clicking strategy consumes one verification;
a verified click returns success, a failed verification moves to the
next strategy (`clickSucceeded` stays false in the source). -/
def tryStrategies (verify : Nat → Bool) : List Bool → Nat → Bool
  | [], _ => false
  | a :: rest, k =>
      if a then
        if verify k then true else tryStrategies verify rest (k + 1)
      else tryStrategies verify rest k

/-- The diagnostic error message thrown when no strategy produced a
verified click, verbatim from the source. -/
def workspaceDiagMsg (workspaceName : String) (titles : List String) : String :=
  "Failed to successfully click workspace \x22" ++ workspaceName ++
    "\x22. This could be due to:\n" ++
    "1. Cookie banner or overlay blocking the click\n" ++
    "2. Workspace name mismatch\n" ++
    "3. Page navigation issues\n" ++
    "Available workspaces: " ++ String.intercalate ", " titles ++ "\n" ++
    "Check the debug screenshot: workspace-" ++ workspaceName ++ "-debug.png"

/-- `clickWorkspace` from src/getSlackCode.ts.  The cookie-banner
dismissal is best-effort and stateless here; the opening
`waitForSelector` throws (rethrown by the outer catch) when the
workspace-list marker never appears. -/
def clickWorkspace (env : ClickEnv) (workspaceName : String) : ClickOutcome :=
  if !env.listMarkerAppears then ClickOutcome.listTimeout
  else if tryStrategies env.verify (availList env) 0 then ClickOutcome.ok
  else ClickOutcome.failed (workspaceDiagMsg workspaceName env.titles)

/-! ### handleSlackLoginFlow -/

/-- JS `code.replace("-", "")`: remove the first dash only. -/
def removeFirstDash : List Char → List Char
  | [] => []
  | '-' :: t => t
  | c :: t => c :: removeFirstDash t

/-- `enterSlackCode` succeeds exactly when the code, with its first dash
removed, has six characters (otherwise it throws). -/
def enterCodeOk (code : String) : Bool := (removeFirstDash code.data).length = 6

/-- Outcome of `handleSlackLoginFlow`: reached the workspace click (with
its outcome), or one of the earlier failure exits. -/
inductive FlowOutcome
  | done (c : ClickOutcome)
  | pollerFailed
  | verifyPageTimeout
  | badCodeLength
  | postCodeTimeout
  | stateUndetected
  deriving DecidableEq, Repr

/-- Observable effects of one `handleSlackLoginFlow` run: its outcome,
how many times the Inbox Poller (`getSlackVerificationCode`) was
invoked, and how many times `clickWorkspace` was invoked. -/
structure FlowRun where
  outcome : FlowOutcome
  pollerCalls : Nat
  clickCalls : Nat
  deriving Repr

/-- Page environment for one `handleSlackLoginFlow` run: the results of
the first-probe marker checks, the delayed re-probe, the waits inside
the verification branch, the poller's answer (`none` = the poller threw
its timeout), and the environment of the eventual workspace click. -/
structure FlowEnv where
  panelPresent : Bool
  linksPresent : Bool
  digitInputPresent : Bool
  confirmationInputPresent : Bool
  delayedLinksPresent : Bool
  delayedDigitPresent : Bool
  digitInputAppears : Bool
  pollerCode : Option String
  postCodeLinksAppear : Bool
  clickEnv : ClickEnv
  workspaceName : String

/-- The email-verification branch: `waitForVerificationPageAndGetCode`
(which first waits for the digit-input selector, then invokes the Inbox
Poller), `enterSlackCode`, the wait for the post-verification workspace
marker, then the workspace click. -/
def verificationBranch (env : FlowEnv) : FlowRun :=
  if !env.digitInputAppears then
    { outcome := FlowOutcome.verifyPageTimeout, pollerCalls := 0, clickCalls := 0 }
  else
    match env.pollerCode with
    | none => { outcome := FlowOutcome.pollerFailed, pollerCalls := 1, clickCalls := 0 }
    | some code =>
        if !enterCodeOk code then
          { outcome := FlowOutcome.badCodeLength, pollerCalls := 1, clickCalls := 0 }
        else if !env.postCodeLinksAppear then
          { outcome := FlowOutcome.postCodeTimeout, pollerCalls := 1, clickCalls := 0 }
        else
          { outcome := FlowOutcome.done (clickWorkspace env.clickEnv env.workspaceName),
            pollerCalls := 1, clickCalls := 1 }

/-- `handleSlackLoginFlow` from src/getSlackCode.ts.  The
`workspaceSelectionAttempted` guard starts false, is set before every
`clickWorkspace` call, and every branch returns immediately after its
click; the guarded duplicate branches of the source are therefore
unreachable and every run performs at most one click. -/
def handleSlackLoginFlow (env : FlowEnv) : FlowRun :=
  if env.panelPresent && env.linksPresent then
    { outcome := FlowOutcome.done (clickWorkspace env.clickEnv env.workspaceName),
      pollerCalls := 0, clickCalls := 1 }
  else if env.digitInputPresent || env.confirmationInputPresent then
    verificationBranch env
  else if env.delayedLinksPresent then
    { outcome := FlowOutcome.done (clickWorkspace env.clickEnv env.workspaceName),
      pollerCalls := 0, clickCalls := 1 }
  else if env.delayedDigitPresent then
    verificationBranch env
  else
    { outcome := FlowOutcome.stateUndetected, pollerCalls := 0, clickCalls := 0 }

/-! ## Lemmas about the polling loop -/

/-- If every poll strictly before the `N`-th is not ready and the `N`-th
is ready-success, the loop started at any attempt index below `N` returns
that solution after exactly `N` total calls. -/
theorem pollLoop_success (pname tid : String) (results : Nat → CaptchaTaskResult)
    (maxAttempts N : Nat) (sol : CaptchaSolution)
    (hNpos : 0 < N) (hNmax : N ≤ maxAttempts)
    (hpend : ∀ i, i < N - 1 → (results i).status ≠ CaptchaTaskStatus.ready)
    (hstat : (results (N - 1)).status = CaptchaTaskStatus.ready)
    (herr : (results (N - 1)).errorId = 0)
    (hsol : (results (N - 1)).solution = some sol) :
    ∀ a, a < N →
      pollLoop pname results tid maxAttempts a = (SolveOutcome.success sol, N) := by
  have key : ∀ k a, N - a ≤ k → a < N →
      pollLoop pname results tid maxAttempts a = (SolveOutcome.success sol, N) := by
    intro k
    induction k with
    | zero => intro a hk ha; omega
    | succ k ih =>
        intro a hk ha
        rw [pollLoop]
        rw [dif_pos (by omega : a < maxAttempts)]
        dsimp only
        by_cases hA : a = N - 1
        · subst hA
          have h1 : ¬ ((results (N - 1)).errorId = 1) := by
            rw [herr]; omega
          rw [if_pos hstat, if_neg h1, if_pos herr, hsol]
          have hN1 : N - 1 + 1 = N := by omega
          rw [hN1]
        · have hlt : a < N - 1 := by omega
          rw [if_neg (hpend a hlt)]
          exact ih (a + 1) (by omega) (by omega)
  exact fun a ha => key (N - a) a le_rfl ha

/-- If no poll up to `maxAttempts` is terminal, the loop exhausts its
attempts and raises the timeout error naming the task id and the attempt
count. -/
theorem pollLoop_timeout (pname tid : String) (results : Nat → CaptchaTaskResult)
    (maxAttempts : Nat)
    (hpend : ∀ i, i < maxAttempts → ¬ isTerminal (results i)) :
    ∀ a, a ≤ maxAttempts →
      pollLoop pname results tid maxAttempts a =
        (SolveOutcome.failure
          ("Task " ++ tid ++ " timed out after " ++ toString maxAttempts ++
            " attempts"),
          maxAttempts) := by
  have key : ∀ k a, maxAttempts - a ≤ k → a ≤ maxAttempts →
      pollLoop pname results tid maxAttempts a =
        (SolveOutcome.failure
          ("Task " ++ tid ++ " timed out after " ++ toString maxAttempts ++
            " attempts"),
          maxAttempts) := by
    intro k
    induction k with
    | zero =>
        intro a hk ha
        have : a = maxAttempts := by omega
        subst this
        rw [pollLoop, dif_neg (by omega)]
    | succ k ih =>
        intro a hk ha
        by_cases hend : a = maxAttempts
        · subst hend; rw [pollLoop, dif_neg (by omega)]
        · have halt : a < maxAttempts := by omega
          have hnt := hpend a halt
          rw [pollLoop, dif_pos halt]
          by_cases hst : (results a).status = CaptchaTaskStatus.ready
          · rw [if_pos hst]
            have h1 : ¬ ((results a).errorId = 1) := by
              intro h; exact hnt ⟨hst, Or.inl h⟩
            rw [if_neg h1]
            by_cases h0 : (results a).errorId = 0
            · rw [if_pos h0]
              cases hsol : (results a).solution with
              | some s =>
                  exact absurd ⟨hst, Or.inr ⟨h0, by rw [hsol]; rfl⟩⟩ hnt
              | none => exact ih (a + 1) (by omega) (by omega)
            · rw [if_neg h0]
              exact ih (a + 1) (by omega) (by omega)
          · rw [if_neg hst]
            exact ih (a + 1) (by omega) (by omega)
  exact fun a ha => key (maxAttempts - a) a le_rfl ha

/-! ## Claim theorems: challenge solver -/

/-- C3: for every backend whose `getTaskResult` returns a non-terminal
(pending/processing) result on the first `N-1` polls and a ready result
with `errorId` 0 and a solution on the `N`-th poll (`N` at most
`maxAttempts`), `solveCaptcha` returns exactly that solution and performs
exactly `N` `getTaskResult` calls. -/
theorem claim_C3_solveCaptcha_nth_poll_solution
    (pname tid : String) (create : CreateTaskResponse)
    (results : Nat → CaptchaTaskResult) (maxAttempts N : Nat) (sol : CaptchaSolution)
    (hc : create.errorId = 0) (htid : create.taskId = some tid) (htne : tid ≠ "")
    (hNpos : 0 < N) (hNmax : N ≤ maxAttempts)
    (hpend : ∀ i, i < N - 1 →
      (results i).status = CaptchaTaskStatus.idle ∨
        (results i).status = CaptchaTaskStatus.processing)
    (hstat : (results (N - 1)).status = CaptchaTaskStatus.ready)
    (herr : (results (N - 1)).errorId = 0)
    (hsol : (results (N - 1)).solution = some sol) :
    solveCaptcha pname create results maxAttempts = (SolveOutcome.success sol, N) := by
  unfold solveCaptcha
  rw [if_neg (by simp [hc])]
  rw [htid]
  dsimp only
  rw [if_neg htne]
  exact pollLoop_success pname tid results maxAttempts N sol hNpos hNmax
    (fun i hi => by rcases hpend i hi with h | h <;> simp [h]) hstat herr hsol 0 hNpos

/-- Concrete mock backend for the C3 witness: processing on the first two
polls, ready-success on the third. -/
def c3WitnessResults : Nat → CaptchaTaskResult := fun i =>
  if i < 2 then ⟨0, none, none, CaptchaTaskStatus.processing, none⟩
  else ⟨0, none, none, CaptchaTaskStatus.ready, some ⟨"solution-token", none⟩⟩

theorem claim_C3_witness :
    solveCaptcha "Capsolver" ⟨0, none, none, some "task-1"⟩ c3WitnessResults 60 =
      (SolveOutcome.success ⟨"solution-token", none⟩, 3) :=
  claim_C3_solveCaptcha_nth_poll_solution "Capsolver" "task-1"
    ⟨0, none, none, some "task-1"⟩ c3WitnessResults 60 3 ⟨"solution-token", none⟩
    rfl rfl (by decide) (by omega) (by omega)
    (fun i hi => Or.inr (by simp only [c3WitnessResults, if_pos hi]))
    (by decide) (by decide) (by decide)

/-- C4: a creation response with non-zero `errorId` makes `solveCaptcha`
reject with the descriptive creation error and zero `getTaskResult`
calls; the creation is performed exactly once (structurally, the
algorithm consults the creation response a single time and never
loops back to it). -/
theorem claim_C4_create_error_rejects_without_polling
    (pname : String) (create : CreateTaskResponse)
    (results : Nat → CaptchaTaskResult) (maxAttempts : Nat)
    (hc : create.errorId ≠ 0) :
    solveCaptcha pname create results maxAttempts =
      (SolveOutcome.failure
        ("Failed to create " ++ pname ++ " task: " ++
          jsOrStr create.errorDescription (jsOrStr create.errorCode "Unknown error")),
        0) := by
  unfold solveCaptcha
  rw [if_pos hc]

theorem claim_C4_witness :
    solveCaptcha "SolveCaptcha"
        ⟨1, some "SOLVECAPTCHA_ERROR", some "ERROR_WRONG_GOOGLEKEY", none⟩
        (fun _ => ⟨0, none, none, CaptchaTaskStatus.idle, none⟩) 60 =
      (SolveOutcome.failure
        "Failed to create SolveCaptcha task: ERROR_WRONG_GOOGLEKEY", 0) := by
  have h := claim_C4_create_error_rejects_without_polling "SolveCaptcha"
    ⟨1, some "SOLVECAPTCHA_ERROR", some "ERROR_WRONG_GOOGLEKEY", none⟩
    (fun _ => ⟨0, none, none, CaptchaTaskStatus.idle, none⟩) 60 (by decide)
  rw [h]; rfl

/-- C9: if no poll within `maxAttempts` is terminal (ready-with-error or
ready-with-solution), `solveCaptcha` raises the timeout error naming the
task id and the number of attempts, after exactly `maxAttempts` calls. -/
theorem claim_C9_timeout_names_task_and_attempts
    (pname tid : String) (create : CreateTaskResponse)
    (results : Nat → CaptchaTaskResult) (maxAttempts : Nat)
    (hc : create.errorId = 0) (htid : create.taskId = some tid) (htne : tid ≠ "")
    (hpend : ∀ i, i < maxAttempts → ¬ isTerminal (results i)) :
    solveCaptcha pname create results maxAttempts =
      (SolveOutcome.failure
        ("Task " ++ tid ++ " timed out after " ++ toString maxAttempts ++
          " attempts"),
        maxAttempts) := by
  unfold solveCaptcha
  rw [if_neg (by simp [hc]), htid]
  dsimp only
  rw [if_neg htne]
  exact pollLoop_timeout pname tid results maxAttempts hpend 0 (Nat.zero_le _)

theorem claim_C9_witness :
    solveCaptcha "Capsolver" ⟨0, none, none, some "task-9"⟩
        (fun _ => ⟨0, none, none, CaptchaTaskStatus.processing, none⟩) 2 =
      (SolveOutcome.failure "Task task-9 timed out after 2 attempts", 2) := by
  have h := claim_C9_timeout_names_task_and_attempts "Capsolver" "task-9"
    ⟨0, none, none, some "task-9"⟩
    (fun _ => ⟨0, none, none, CaptchaTaskStatus.processing, none⟩) 2
    rfl rfl (by decide)
    (fun i _ => by
      show ¬ isTerminal ⟨0, none, none, CaptchaTaskStatus.processing, none⟩
      decide)
  rw [h]; rfl

/-! ## Claim theorems: cookie transformer -/

/-- C8: `transformCookie` maps raw `sameSite` values `strict`, `lax`,
`no_restriction`, `unspecified` to `Strict`, `Lax`, `None`, `Lax`
respectively; maps a non-zero `expirationDate` to
`expires = floor(expirationDate)`; omits `expires` entirely when
`expirationDate` is absent; and copies `name`, `value`, `domain`, `path`,
`httpOnly` and `secure` unchanged. -/
theorem claim_C8_transformCookie_spec :
    (mapSameSiteValue "strict" = PwSameSite.Strict ∧
      mapSameSiteValue "lax" = PwSameSite.Lax ∧
      mapSameSiteValue "no_restriction" = PwSameSite.NoneMode ∧
      mapSameSiteValue "unspecified" = PwSameSite.Lax) ∧
    (∀ (c : RawCookie) (q : Rat), c.expirationDate = some q → q ≠ 0 →
      (transformCookie c).expires = some ⌊q⌋) ∧
    (∀ c : RawCookie, c.expirationDate = none →
      (transformCookie c).expires = none) ∧
    (∀ c : RawCookie,
      (transformCookie c).name = c.name ∧
      (transformCookie c).value = c.value ∧
      (transformCookie c).domain = c.domain ∧
      (transformCookie c).path = c.path ∧
      (transformCookie c).httpOnly = c.httpOnly ∧
      (transformCookie c).secure = c.secure ∧
      (transformCookie c).sameSite = mapSameSiteValue c.sameSite) := by
  refine ⟨⟨rfl, rfl, rfl, rfl⟩, ?_, ?_, ?_⟩
  · intro c q hq hne
    simp [transformCookie, hq, hne]
  · intro c hc
    simp [transformCookie, hc]
  · intro c
    exact ⟨rfl, rfl, rfl, rfl, rfl, rfl, rfl⟩

/-- The spec's worked cookie example: `sameSite:"no_restriction"`,
fractional `expirationDate` 1700000000.7. -/
def c8RawCookie : RawCookie :=
  ⟨"example.com", some (17000000007 / 10 : Rat), false, true, "d", "/",
    "no_restriction", true, false, "0", "v"⟩

theorem claim_C8_witness :
    (transformCookie c8RawCookie).expires = some 1700000000 ∧
    (transformCookie c8RawCookie).sameSite = PwSameSite.NoneMode := by
  constructor
  · have h := claim_C8_transformCookie_spec.2.1 c8RawCookie
      (17000000007 / 10 : Rat) rfl (by norm_num)
    rw [h]
    norm_num
  · have h := (claim_C8_transformCookie_spec.2.2.2 c8RawCookie).2.2.2.2.2.2
    rw [h]
    exact claim_C8_transformCookie_spec.1.2.2.1

/-! ## Lemmas about the verification-code matcher -/

/-- A successful anchored code match, re-parsed from its own start,
matches itself exactly (so the extracted code has the anchored shape
`^[A-Z0-9]{3}-[A-Z0-9]{2,3}$`). -/
theorem codeParseAt_self {s m : List Char} (hm : codeParseAt s = some m) :
    codeParseAt m = some m := by
  unfold codeParseAt at hm
  split at hm
  · rename_i a b c d e rest
    by_cases hP : (isUpperAlnum a && isUpperAlnum b && isUpperAlnum c &&
        isUpperAlnum d && isUpperAlnum e) = true
    · rw [if_pos hP] at hm
      rcases rest with _ | ⟨f, tail⟩
      · dsimp only at hm
        cases hm
        simp [codeParseAt, hP]
      · dsimp only at hm
        by_cases hf : isUpperAlnum f = true
        · rw [if_pos hf] at hm
          cases hm
          simp [codeParseAt, hP, hf]
        · rw [if_neg hf] at hm
          cases hm
          simp [codeParseAt, hP]
    · rw [if_neg hP] at hm
      cases hm
  · cases hm

/-- The leftmost code match also matches itself from its own start. -/
theorem codeSearch_self : ∀ {s m : List Char},
    codeSearch s = some m → codeParseAt m = some m := by
  intro s
  induction s with
  | nil => intro m h; cases h
  | cons c t ih =>
      intro m h
      rw [codeSearch] at h
      cases hp : codeParseAt (c :: t) with
      | some m' => rw [hp] at h; cases h; exact codeParseAt_self hp
      | none => rw [hp] at h; exact ih h

/-- Soundness of the poll scan: a returned code comes from a message
whose receipt timestamp is strictly after `notBefore` and whose body
yields that code. -/
theorem pollScanMessages_sound :
    ∀ (nb : Int) (msgs : List GmailMessage) (c : String),
      pollScanMessages nb msgs = some c →
      ∃ m, m ∈ msgs ∧ nb < m.internalDate ∧ extractCodeFromBody m.body = some c := by
  intro nb msgs
  induction msgs with
  | nil => intro c h; cases h
  | cons m rest ih =>
      intro c h
      rw [pollScanMessages] at h
      by_cases hd : nb < m.internalDate
      · rw [if_pos hd] at h
        cases he : extractCodeFromBody m.body with
        | some c' =>
            rw [he] at h
            cases h
            exact ⟨m, List.mem_cons_self m rest, hd, he⟩
        | none =>
            rw [he] at h
            obtain ⟨m', hmem, h1, h2⟩ := ih c h
            exact ⟨m', List.mem_cons_of_mem _ hmem, h1, h2⟩
      · rw [if_neg hd] at h
        obtain ⟨m', hmem, h1, h2⟩ := ih c h
        exact ⟨m', List.mem_cons_of_mem _ hmem, h1, h2⟩

/-! ## Claim theorem: inbox poller -/

/-- C6: for a pair of candidate messages, one with `internalDate` not
after `notBefore` and one strictly after, the poll scan inspects only
the strictly-after message (in particular the stale message's body is
irrelevant) and returns its code; a message not strictly after
`notBefore` is never the source of the returned code; and every
returned code matches the anchored pattern
`^[A-Z0-9]{3}-[A-Z0-9]{2,3}$`. -/
theorem claim_C6_inbox_freshness :
    (∀ (mOld mNew : GmailMessage) (nb : Int) (c : String),
      mOld.internalDate ≤ nb → nb < mNew.internalDate →
      extractCodeFromBody mNew.body = some c →
      pollScanMessages nb [mOld, mNew] = some c ∧
      pollScanMessages nb [mNew, mOld] = some c ∧
      (∀ b : String, pollScanMessages nb [⟨mOld.internalDate, b⟩, mNew] = some c)) ∧
    (∀ (nb : Int) (msgs : List GmailMessage) (c : String),
      pollScanMessages nb msgs = some c →
      ∃ m, m ∈ msgs ∧ nb < m.internalDate ∧ extractCodeFromBody m.body = some c) ∧
    (∀ body c : String, extractCodeFromBody body = some c →
      specCodeConforms c = true) := by
  refine ⟨?_, pollScanMessages_sound, ?_⟩
  · intro mOld mNew nb c hOld hNew hc
    have hscan : ∀ (b : String) (d : Int), d ≤ nb →
        pollScanMessages nb [⟨d, b⟩, mNew] = some c := by
      intro b d hd
      rw [pollScanMessages,
        if_neg (show ¬ nb < (⟨d, b⟩ : GmailMessage).internalDate from not_lt.mpr hd),
        pollScanMessages, if_pos hNew, hc]
    refine ⟨hscan mOld.body mOld.internalDate hOld, ?_, fun b => hscan b mOld.internalDate hOld⟩
    rw [pollScanMessages, if_pos hNew, hc]
  · intro body c h
    unfold extractCodeFromBody at h
    cases hs : codeSearch body.data with
    | none => rw [hs] at h; cases h
    | some m =>
        rw [hs] at h
        simp only [Option.map_some'] at h
        cases h
        simp [specCodeConforms, codeSearch_self hs]

/-- Concrete messages for the C6 witness: a stale candidate and a fresh
one carrying a code. -/
def c6Old : GmailMessage := ⟨50, "stale text AAA-BB inside"⟩

def c6New : GmailMessage := ⟨150, "Your Slack confirmation code is QGI-T68."⟩

theorem claim_C6_witness :
    pollScanMessages 100 [c6Old, c6New] = some "QGI-T68" ∧
    pollScanMessages 100 [c6New, c6Old] = some "QGI-T68" := by
  have h := claim_C6_inbox_freshness.1 c6Old c6New 100 "QGI-T68"
    (by decide) (by decide) (by decide)
  exact ⟨h.1, h.2.1⟩

/-! ## Lemmas about the workspace-click strategies -/

/-- A strategy walk succeeds only if some verification succeeded. -/
theorem tryStrategies_true_exists (verify : Nat → Bool) :
    ∀ (l : List Bool) (k : Nat), tryStrategies verify l k = true →
      ∃ j, verify j = true := by
  intro l
  induction l with
  | nil => intro k h; cases h
  | cons a rest ih =>
      intro k h
      rw [tryStrategies] at h
      by_cases ha : a = true
      · rw [if_pos ha] at h
        by_cases hv : verify k = true
        · exact ⟨k, hv⟩
        · rw [if_neg hv] at h
          exact ih (k + 1) h
      · rw [if_neg ha] at h
        exact ih k h

/-- If every verification fails, no strategy walk succeeds. -/
theorem tryStrategies_all_fail (verify : Nat → Bool)
    (hv : ∀ k, verify k = false) :
    ∀ (l : List Bool) (k : Nat), tryStrategies verify l k = false := by
  intro l
  induction l with
  | nil => intro k; rfl
  | cons a rest ih =>
      intro k
      rw [tryStrategies]
      by_cases ha : a = true
      · rw [if_pos ha, hv k]
        simpa using ih (k + 1)
      · rw [if_neg ha]
        exact ih k

/-! ## Claim theorem: workspace click verification -/

/-- C5: a strategy whose click's verification race observes no state
change is a failed attempt and the walk proceeds to the next strategy;
`clickWorkspace` returns success only after some verified click; when no
strategy produces a verified success it throws the diagnostic error
listing the workspace titles visible on the page; and in particular a
run all of whose verifications fail produces no verified success. -/
theorem claim_C5_clickWorkspace_verified_only :
    (∀ (verify : Nat → Bool) (rest : List Bool) (k : Nat),
      verify k = false →
      tryStrategies verify (true :: rest) k = tryStrategies verify rest (k + 1)) ∧
    (∀ (env : ClickEnv) (name : String),
      clickWorkspace env name = ClickOutcome.ok → ∃ j, env.verify j = true) ∧
    (∀ (env : ClickEnv) (name : String),
      env.listMarkerAppears = true →
      tryStrategies env.verify (availList env) 0 = false →
      clickWorkspace env name =
        ClickOutcome.failed (workspaceDiagMsg name env.titles)) ∧
    (∀ env : ClickEnv, (∀ k, env.verify k = false) →
      tryStrategies env.verify (availList env) 0 = false) := by
  refine ⟨?_, ?_, ?_, ?_⟩
  · intro verify rest k hk
    rw [tryStrategies, if_pos rfl, hk]
    simp
  · intro env name h
    unfold clickWorkspace at h
    by_cases hl : env.listMarkerAppears = true
    · rw [hl] at h
      simp only [Bool.not_true, Bool.false_eq_true, if_false] at h
      by_cases ht : tryStrategies env.verify (availList env) 0 = true
      · exact tryStrategies_true_exists env.verify (availList env) 0 ht
      · rw [if_neg ht] at h
        cases h
    · simp only [Bool.not_eq_true] at hl
      rw [hl] at h
      cases h
  · intro env name hl hv
    unfold clickWorkspace
    rw [hl, hv]
    simp
  · intro env hv
    exact tryStrategies_all_fail env.verify hv (availList env) 0

/-- Concrete environment for the C5 witness: the aria-label strategy and
the generic-button strategy both click, but no verification ever
observes a change. -/
def c5Env : ClickEnv :=
  ⟨true, 1, 0, false, false, true, true, false, false, false, false, false,
    false, fun _ => false, ["Acme Corp", "Beta Team"]⟩

theorem claim_C5_witness :
    clickWorkspace c5Env "Acme Corp" =
      ClickOutcome.failed (workspaceDiagMsg "Acme Corp" ["Acme Corp", "Beta Team"]) :=
  claim_C5_clickWorkspace_verified_only.2.2.1 c5Env "Acme Corp" rfl (by decide)

/-! ## Claim theorem: login flow first-probe behaviour -/

/-- The verification branch performs at most one workspace click. -/
theorem verificationBranch_clickCalls_le_one (env : FlowEnv) :
    (verificationBranch env).clickCalls ≤ 1 := by
  unfold verificationBranch
  by_cases h1 : env.digitInputAppears = true
  · simp only [h1]
    cases env.pollerCode with
    | none => simp
    | some code =>
        by_cases h2 : enterCodeOk code = true
        · by_cases h3 : env.postCodeLinksAppear = true
          · simp [h2, h3]
          · simp only [Bool.not_eq_true] at h3
            simp [h2, h3]
        · simp only [Bool.not_eq_true] at h2
          simp [h2]
  · simp only [Bool.not_eq_true] at h1
    simp [h1]

/-- C7: whenever the workspace-list markers are present on the first
probe, `handleSlackLoginFlow` goes straight to the workspace click: the
Inbox Poller is never invoked, exactly one `clickWorkspace` call is
made, and the run's outcome is that click's outcome; moreover in every
run whatsoever (the attempted-guard discipline) `clickWorkspace` is
invoked at most once. -/
theorem claim_C7_first_probe_skips_poller :
    (∀ env : FlowEnv, env.panelPresent = true → env.linksPresent = true →
      handleSlackLoginFlow env =
        { outcome := FlowOutcome.done (clickWorkspace env.clickEnv env.workspaceName),
          pollerCalls := 0, clickCalls := 1 }) ∧
    (∀ env : FlowEnv, (handleSlackLoginFlow env).clickCalls ≤ 1) := by
  constructor
  · intro env hp hl
    unfold handleSlackLoginFlow
    rw [hp, hl]
    simp
  · intro env
    unfold handleSlackLoginFlow
    by_cases h1 : (env.panelPresent && env.linksPresent) = true
    · simp [h1]
    · rw [if_neg (by simp [h1])]
      by_cases h2 : (env.digitInputPresent || env.confirmationInputPresent) = true
      · rw [if_pos (by simp [h2])]
        exact verificationBranch_clickCalls_le_one env
      · rw [if_neg (by simp [h2])]
        by_cases h3 : env.delayedLinksPresent = true
        · simp [h3]
        · rw [if_neg (by simp [h3])]
          by_cases h4 : env.delayedDigitPresent = true
          · rw [if_pos (by simp [h4])]
            exact verificationBranch_clickCalls_le_one env
          · rw [if_neg (by simp [h4])]
            simp

/-- Concrete environment for the C7 witness: workspace markers present
on the first probe, a verified first click. -/
def c7Env : FlowEnv :=
  ⟨true, true, false, false, false, false, true, none, true,
    ⟨true, 1, 0, false, false, false, false, false, false, false, false,
      false, false, fun _ => true, ["Acme Corp"]⟩,
    "Acme Corp"⟩

theorem claim_C7_witness :
    handleSlackLoginFlow c7Env =
      { outcome := FlowOutcome.done ClickOutcome.ok,
        pollerCalls := 0, clickCalls := 1 } := by
  have h := claim_C7_first_probe_skips_poller.1 c7Env rfl rfl
  rw [h]
  rfl

/-! ## Lemmas about the xoxc parser combinators -/

theorem pLit_self : ∀ (lit x : List Char), pLit lit (lit ++ x) = some x := by
  intro lit
  induction lit with
  | nil => intro x; rfl
  | cons c cs ih =>
      intro x
      rw [List.cons_append, pLit, if_pos rfl]
      exact ih x

theorem pLit_decomp : ∀ {lit s r : List Char}, pLit lit s = some r → s = lit ++ r := by
  intro lit
  induction lit with
  | nil =>
      intro s r h
      rw [pLit] at h
      cases h
      rfl
  | cons c cs ih =>
      intro s r h
      cases s with
      | nil => cases h
      | cons d ds =>
          rw [pLit] at h
          by_cases hcd : c = d
          · rw [if_pos hcd] at h
            subst hcd
            rw [List.cons_append]
            exact congrArg (List.cons c) (ih h)
          · rw [if_neg hcd] at h
            cases h

theorem pLit_append {lit s r : List Char} (b : List Char) (h : pLit lit s = some r) :
    pLit lit (s ++ b) = some (r ++ b) := by
  have hd := pLit_decomp h
  subst hd
  rw [List.append_assoc]
  exact pLit_self lit (r ++ b)

theorem takeDigits_decomp : ∀ {s a r : List Char}, takeDigits s = (a, r) → s = a ++ r := by
  intro s
  induction s with
  | nil => intro a r h; cases h; rfl
  | cons c t ih =>
      intro a r h
      rw [takeDigits] at h
      by_cases hc : isDigitCh c = true
      · rw [if_pos hc] at h
        dsimp only at h
        cases h
        rw [List.cons_append]
        exact congrArg (List.cons c) (ih rfl)
      · rw [if_neg hc] at h
        cases h
        rfl

theorem takeDigits_all : ∀ {s a r : List Char}, takeDigits s = (a, r) →
    ∀ c ∈ a, isDigitCh c = true := by
  intro s
  induction s with
  | nil => intro a r h; cases h; intro c hc; cases hc
  | cons c t ih =>
      intro a r h
      rw [takeDigits] at h
      by_cases hc : isDigitCh c = true
      · rw [if_pos hc] at h
        dsimp only at h
        cases h
        intro x hx
        rcases List.mem_cons.mp hx with hx | hx
        · subst hx; exact hc
        · exact ih rfl x hx
      · rw [if_neg hc] at h
        cases h
        intro x hx
        cases hx

theorem takeDigits_digits_dash {ds : List Char}
    (h : ∀ c ∈ ds, isDigitCh c = true) (r : List Char) :
    takeDigits (ds ++ '-' :: r) = (ds, '-' :: r) := by
  induction ds with
  | nil =>
      rw [List.nil_append, takeDigits, if_neg]
      decide
  | cons c t ih =>
      rw [List.cons_append, takeDigits,
        if_pos (h c (List.mem_cons_self c t)),
        ih (fun x hx => h x (List.mem_cons_of_mem c hx))]

theorem pGroupDash_decomp {s g r : List Char} (h : pGroupDash s = some (g, r)) :
    s = g ++ r ∧
      ∃ ds, ds ≠ [] ∧ (∀ c ∈ ds, isDigitCh c = true) ∧ g = ds ++ ['-'] := by
  unfold pGroupDash at h
  dsimp only at h
  have hp : takeDigits s = ((takeDigits s).1, (takeDigits s).2) := (Prod.mk.eta).symm
  split at h
  · cases h
  · rename_i d ds' r' heq1 heq2
    rw [heq1] at h
    cases h
    have hs := takeDigits_decomp hp
    rw [heq1, heq2] at hs
    refine ⟨by simpa using hs, d :: ds', by simp, ?_, rfl⟩
    intro c hc
    have hall := takeDigits_all hp
    rw [heq1] at hall
    exact hall c hc
  · cases h

theorem pGroupDash_self {ds : List Char} (hne : ds ≠ [])
    (hds : ∀ c ∈ ds, isDigitCh c = true) (x : List Char) :
    pGroupDash ((ds ++ ['-']) ++ x) = some (ds ++ ['-'], x) := by
  unfold pGroupDash
  rw [List.append_assoc]
  rw [show (['-'] ++ x : List Char) = '-' :: x from rfl]
  rw [takeDigits_digits_dash hds x]
  cases ds with
  | nil => exact absurd rfl hne
  | cons c t => rfl

/-- `pGroupDash_self` with the tail in cons form (the shape left after
reassociating appends to the right). -/
theorem pGroupDash_self_cons {ds : List Char} (hne : ds ≠ [])
    (hds : ∀ c ∈ ds, isDigitCh c = true) (x : List Char) :
    pGroupDash (ds ++ '-' :: x) = some (ds ++ ['-'], x) := by
  unfold pGroupDash
  rw [takeDigits_digits_dash hds x]
  cases ds with
  | nil => exact absurd rfl hne
  | cons c t => rfl

theorem pGroupDash_append {s g r : List Char} (b : List Char)
    (h : pGroupDash s = some (g, r)) :
    pGroupDash (s ++ b) = some (g, r ++ b) := by
  obtain ⟨hs, ds, hne, hds, hg⟩ := pGroupDash_decomp h
  subst hg
  subst hs
  rw [List.append_assoc _ r b]
  exact pGroupDash_self hne hds (r ++ b)

theorem pClass64_decomp : ∀ {n : Nat} {s t r : List Char},
    pClass64 n s = some (t, r) → s = t ++ r ∧ pClass64 n t = some (t, []) := by
  intro n
  induction n with
  | zero =>
      intro s t r h
      rw [pClass64] at h
      cases h
      exact ⟨rfl, rfl⟩
  | succ k ih =>
      intro s t r h
      cases s with
      | nil => cases h
      | cons c u =>
          rw [pClass64] at h
          by_cases hc : isLowerAlnum c = true
          · rw [if_pos hc] at h
            cases hk : pClass64 k u with
            | none => rw [hk] at h; cases h
            | some p =>
                rw [hk] at h
                cases p with
                | mk a r' =>
                    dsimp only at h
                    cases h
                    obtain ⟨hu, hself⟩ := ih hk
                    constructor
                    · rw [hu, List.cons_append]
                    · rw [pClass64, if_pos hc, hself]
          · rw [if_neg hc] at h
            cases h

theorem pClass64_append : ∀ {n : Nat} {s t r : List Char} (b : List Char),
    pClass64 n s = some (t, r) → pClass64 n (s ++ b) = some (t, r ++ b) := by
  intro n
  induction n with
  | zero =>
      intro s t r b h
      rw [pClass64] at h
      cases h
      rw [pClass64]
  | succ k ih =>
      intro s t r b h
      cases s with
      | nil => cases h
      | cons c u =>
          rw [pClass64] at h
          by_cases hc : isLowerAlnum c = true
          · rw [if_pos hc] at h
            cases hk : pClass64 k u with
            | none => rw [hk] at h; cases h
            | some p =>
                rw [hk] at h
                cases p with
                | mk a r' =>
                    dsimp only at h
                    cases h
                    rw [List.cons_append, pClass64, if_pos hc, ih b hk]
          · rw [if_neg hc] at h
            cases h

/-- The `xoxc-` literal consumed in cons-normal form. -/
theorem pLit_xoxc (x : List Char) :
    pLit ['x', 'o', 'x', 'c', '-'] ('x' :: 'o' :: 'x' :: 'c' :: '-' :: x) = some x := by
  rfl

theorem xoxcParseAt_append {s m r : List Char} (b : List Char)
    (h : xoxcParseAt s = some (m, r)) :
    xoxcParseAt (s ++ b) = some (m, r ++ b) := by
  unfold xoxcParseAt at h ⊢
  cases h0 : pLit "xoxc-".data s with
  | none => rw [h0] at h; cases h
  | some r0 =>
      rw [h0] at h; dsimp only at h
      cases h1 : pGroupDash r0 with
      | none => rw [h1] at h; cases h
      | some p1 =>
          obtain ⟨g1, r1⟩ := p1
          rw [h1] at h; dsimp only at h
          cases h2 : pGroupDash r1 with
          | none => rw [h2] at h; cases h
          | some p2 =>
              obtain ⟨g2, r2⟩ := p2
              rw [h2] at h; dsimp only at h
              cases h3 : pGroupDash r2 with
              | none => rw [h3] at h; cases h
              | some p3 =>
                  obtain ⟨g3, r3⟩ := p3
                  rw [h3] at h; dsimp only at h
                  cases h4 : pClass64 64 r3 with
                  | none => rw [h4] at h; cases h
                  | some p4 =>
                      obtain ⟨t, r4⟩ := p4
                      rw [h4] at h; dsimp only at h
                      cases h
                      simp only [pLit_append b h0, pGroupDash_append b h1,
                        pGroupDash_append b h2, pGroupDash_append b h3,
                        pClass64_append b h4]

theorem xoxcParseAt_decomp {s m r : List Char}
    (h : xoxcParseAt s = some (m, r)) :
    s = m ++ r ∧ xoxcParseAt m = some (m, []) := by
  unfold xoxcParseAt at h
  cases h0 : pLit "xoxc-".data s with
  | none => rw [h0] at h; cases h
  | some r0 =>
      rw [h0] at h; dsimp only at h
      cases h1 : pGroupDash r0 with
      | none => rw [h1] at h; cases h
      | some p1 =>
          obtain ⟨g1, r1⟩ := p1
          rw [h1] at h; dsimp only at h
          cases h2 : pGroupDash r1 with
          | none => rw [h2] at h; cases h
          | some p2 =>
              obtain ⟨g2, r2⟩ := p2
              rw [h2] at h; dsimp only at h
              cases h3 : pGroupDash r2 with
              | none => rw [h3] at h; cases h
              | some p3 =>
                  obtain ⟨g3, r3⟩ := p3
                  rw [h3] at h; dsimp only at h
                  cases h4 : pClass64 64 r3 with
                  | none => rw [h4] at h; cases h
                  | some p4 =>
                      obtain ⟨t, r4⟩ := p4
                      rw [h4] at h; dsimp only at h
                      cases h
                      obtain ⟨e1, ds1, hne1, hds1, hg1⟩ := pGroupDash_decomp h1
                      obtain ⟨e2, ds2, hne2, hds2, hg2⟩ := pGroupDash_decomp h2
                      obtain ⟨e3, ds3, hne3, hds3, hg3⟩ := pGroupDash_decomp h3
                      obtain ⟨e4, hself4⟩ := pClass64_decomp h4
                      have e0 := pLit_decomp h0
                      constructor
                      · subst e0 e1 e2 e3 e4
                        simp [List.append_assoc]
                      · subst hg1 hg2 hg3
                        unfold xoxcParseAt
                        simp only [show ("xoxc-".data : List Char) =
                            ['x', 'o', 'x', 'c', '-'] from rfl,
                          List.append_assoc, List.singleton_append,
                          List.cons_append, List.nil_append]
                        rw [pLit_xoxc]
                        dsimp only
                        rw [pGroupDash_self_cons hne1 hds1]
                        dsimp only
                        rw [pGroupDash_self_cons hne2 hds2]
                        dsimp only
                        rw [pGroupDash_self_cons hne3 hds3]
                        dsimp only
                        rw [hself4]
                        simp [List.append_assoc]

theorem xoxcSearch_exists : ∀ {s m : List Char}, xoxcSearch s = some m →
    ∃ t r, t <:+ s ∧ xoxcParseAt t = some (m, r) := by
  intro s
  induction s with
  | nil => intro m h; cases h
  | cons c u ih =>
      intro m h
      rw [xoxcSearch] at h
      cases hp : xoxcParseAt (c :: u) with
      | some p =>
          rw [hp] at h; dsimp only at h
          cases h
          exact ⟨c :: u, p.2, List.suffix_rfl, by rw [hp, Prod.mk.eta]⟩
      | none =>
          rw [hp] at h
          obtain ⟨t, r, hsuf, hpt⟩ := ih h
          exact ⟨t, r, hsuf.trans (List.suffix_cons c u), hpt⟩

theorem xoxcSearch_isSome_of_suffix_parse : ∀ {s t m r : List Char},
    t <:+ s → xoxcParseAt t = some (m, r) → (xoxcSearch s).isSome := by
  intro s
  induction s with
  | nil =>
      intro t m r hsuf hp
      rw [List.suffix_nil.mp hsuf] at hp
      cases hp
  | cons c u ih =>
      intro t m r hsuf hp
      rw [xoxcSearch]
      cases hq : xoxcParseAt (c :: u) with
      | some p => simp
      | none =>
          rcases List.suffix_cons_iff.mp hsuf with he | hs'
          · rw [he, hq] at hp; cases hp
          · exact ih hs' hp

theorem xoxcSearch_isSome_of_infix {sub s : List Char}
    (hinf : sub <:+: s) (h : (xoxcSearch sub).isSome) :
    (xoxcSearch s).isSome := by
  obtain ⟨m, hm⟩ := Option.isSome_iff_exists.mp h
  obtain ⟨t, r, hsuf, hp⟩ := xoxcSearch_exists hm
  obtain ⟨p, q, hpq⟩ := hinf
  obtain ⟨u, hu⟩ := hsuf
  have hsuf2 : (t ++ q) <:+ s := by
    refine ⟨p ++ u, ?_⟩
    rw [← hpq, ← hu]
    simp [List.append_assoc]
  exact xoxcSearch_isSome_of_suffix_parse hsuf2 (xoxcParseAt_append q hp)

/-- The substring returned by the unanchored search itself passes the
regex test. -/
theorem xoxcSearch_self_test {s m : List Char} (h : xoxcSearch s = some m) :
    (xoxcSearch m).isSome := by
  obtain ⟨t, r, hsuf, hp⟩ := xoxcSearch_exists h
  exact xoxcSearch_isSome_of_suffix_parse List.suffix_rfl (xoxcParseAt_decomp hp).2

/-! ## The multipart capture is a substring of the body -/

theorem dropAfterLit_suffix : ∀ {lit s r : List Char},
    dropAfterLit lit s = some r → r <:+ s := by
  intro lit s
  induction s with
  | nil => intro r h; cases h
  | cons c t ih =>
      intro r h
      rw [dropAfterLit] at h
      by_cases hp : lit.isPrefixOf (c :: t) = true
      · rw [if_pos hp] at h
        cases h
        exact List.drop_suffix _ _
      · rw [if_neg hp] at h
        exact (ih h).trans (List.suffix_cons c t)

theorem takeNotCRLF_decomp : ∀ {s a r : List Char},
    takeNotCRLF s = (a, r) → s = a ++ r := by
  intro s
  induction s with
  | nil => intro a r h; cases h; rfl
  | cons c t ih =>
      intro a r h
      rw [takeNotCRLF] at h
      by_cases hc : isNotCRLF c = true
      · rw [if_pos hc] at h
        dsimp only at h
        cases h
        rw [List.cons_append]
        exact congrArg (List.cons c) (ih rfl)
      · rw [if_neg hc] at h
        cases h
        rfl

theorem multiTailParse_starts {s cap : List Char}
    (h : multiTailParse s = some cap) : cap <+: s := by
  unfold multiTailParse at h
  cases h0 : pLit "xoxc-".data s with
  | none => rw [h0] at h; cases h
  | some r =>
      rw [h0] at h; dsimp only at h
      split at h
      · cases h
      · rename_i runA restA hne heq
        cases h
        have hr := takeNotCRLF_decomp heq
        have hs := pLit_decomp h0
        refine ⟨restA, ?_⟩
        rw [hs, hr]
        simp [List.append_assoc]

theorem tryVariants_capture : ∀ {vs : List (List Char)} {s cap : List Char},
    tryVariants vs s = some cap → ∃ n, multiTailParse (s.drop n) = some cap := by
  intro vs
  induction vs with
  | nil => intro s cap h; cases h
  | cons v vs' ih =>
      intro s cap h
      rw [tryVariants] at h
      by_cases hp : v.isPrefixOf s = true
      · rw [if_pos hp] at h
        cases hm : multiTailParse (s.drop v.length) with
        | some cap' => rw [hm] at h; cases h; exact ⟨v.length, hm⟩
        | none => rw [hm] at h; exact ih h
      · rw [if_neg hp] at h
        exact ih h

theorem scanBlankXoxc_isInfix : ∀ {s cap : List Char},
    scanBlankXoxc s = some cap → cap <:+: s := by
  intro s
  induction s with
  | nil => intro cap h; cases h
  | cons c t ih =>
      intro cap h
      rw [scanBlankXoxc] at h
      cases htv : tryVariants blankVariants (c :: t) with
      | some cap' =>
          rw [htv] at h
          cases h
          obtain ⟨n, hm⟩ := tryVariants_capture htv
          exact (multiTailParse_starts hm).isInfix.trans
            (List.drop_suffix n (c :: t)).isInfix
      | none =>
          rw [htv] at h
          exact (ih h).trans (List.suffix_cons c t).isInfix

theorem trimWs_isInfix (l : List Char) : trimWs l <:+: l := by
  have h2 : trimWs l <+: l.dropWhile isJsWs := by
    have hx := List.dropWhile_suffix (l := (l.dropWhile isJsWs).reverse) isJsWs
    have := hx.reverse
    simpa [trimWs] using this
  exact h2.isInfix.trans (List.dropWhile_suffix isJsWs).isInfix

theorem multipartTokenCapture_isInfix {d cap : List Char}
    (h : multipartTokenCapture d = some cap) : cap <:+: d := by
  unfold multipartTokenCapture at h
  cases h0 : dropAfterLit "name=\x22token\x22".data d with
  | none => rw [h0] at h; cases h
  | some rest =>
      rw [h0] at h
      dsimp only at h
      cases h1 : scanBlankXoxc rest with
      | none => rw [h1] at h; cases h
      | some cap0 =>
          rw [h1] at h
          simp only [Option.map_some'] at h
          cases h
          exact ((trimWs_isInfix cap0).trans
            (scanBlankXoxc_isInfix h1)).trans (dropAfterLit_suffix h0).isInfix

/-! ## Helper lemmas for the token-extraction claims -/

/-- Both guarded branches only return a token passing the regex test. -/
theorem tokenBranch_test {d tok : List Char} (h : tokenBranch d = some tok) :
    (xoxcSearch tok).isSome := by
  unfold tokenBranch at h
  by_cases h1 : (containsLit "=".data d &&
      !containsLit "Content-Disposition".data d) = true
  · rw [if_pos h1] at h
    cases hu : urlParamsGet d "token".data with
    | none => rw [hu] at h; cases h
    | some tk =>
        rw [hu] at h; dsimp only at h
        by_cases ht : (xoxcSearch tk).isSome = true
        · rw [if_pos ht] at h; cases h; exact ht
        · rw [if_neg ht] at h; cases h
  · rw [if_neg h1] at h
    by_cases h2 : containsLit "Content-Disposition".data d = true
    · rw [if_pos h2] at h
      cases hm : multipartTokenCapture d with
      | none => rw [hm] at h; cases h
      | some cap =>
          rw [hm] at h; dsimp only at h
          by_cases ht : (xoxcSearch cap).isSome = true
          · rw [if_pos ht] at h; cases h; exact ht
          · rw [if_neg ht] at h; cases h
    · rw [if_neg h2] at h; cases h

/-- Every token the extractor returns passes `XOXC_TOKEN_REGEX.test`. -/
theorem extract_some_test {body t : String}
    (h : extractTokenFromFormData body = some t) : xoxcTest t = true := by
  unfold extractTokenFromFormData at h
  by_cases hb : body = ""
  · rw [if_pos hb] at h; cases h
  · rw [if_neg hb] at h
    cases hbr : tokenBranch body.data with
    | some tok =>
        rw [hbr] at h; dsimp only at h; cases h
        simpa [xoxcTest] using tokenBranch_test hbr
    | none =>
        rw [hbr] at h; dsimp only at h
        cases hs : xoxcSearch body.data with
        | none => rw [hs] at h; cases h
        | some m =>
            rw [hs] at h
            simp only [Option.map_some'] at h
            cases h
            simpa [xoxcTest] using xoxcSearch_self_test hs

/-- The sufficient no-capture condition for a request body: the raw body
contains no `XOXC_TOKEN_REGEX` match and the decoded `token` parameter
(if the body parses as URL-encoded form data) fails the test too.
The multipart capture needs no extra clause: it is a substring of the
raw body. -/
def noTokenAnywhere (body : String) : Bool :=
  (xoxcSearch body.data).isNone &&
    (match urlParamsGet body.data "token".data with
     | some tok => (xoxcSearch tok).isNone
     | none => true)

/-- A body with no token anywhere extracts to `none` (and the total
embedding returns rather than throwing). -/
theorem noTokenAnywhere_extract_none {body : String}
    (h : noTokenAnywhere body = true) : extractTokenFromFormData body = none := by
  unfold noTokenAnywhere at h
  rw [Bool.and_eq_true] at h
  obtain ⟨h1, h2⟩ := h
  rw [Option.isNone_iff_eq_none] at h1
  unfold extractTokenFromFormData
  by_cases hb : body = ""
  · rw [if_pos hb]
  · rw [if_neg hb]
    have hbr : tokenBranch body.data = none := by
      unfold tokenBranch
      by_cases c1 : (containsLit "=".data body.data &&
          !containsLit "Content-Disposition".data body.data) = true
      · rw [if_pos c1]
        cases hu : urlParamsGet body.data "token".data with
        | none => rfl
        | some tk =>
            rw [hu] at h2
            dsimp only
            rw [if_neg]
            intro hsome
            rw [Option.isNone_iff_eq_none] at h2
            rw [h2] at hsome
            cases hsome
      · rw [if_neg c1]
        by_cases c2 : containsLit "Content-Disposition".data body.data = true
        · rw [if_pos c2]
          cases hm : multipartTokenCapture body.data with
          | none => rfl
          | some cap =>
              dsimp only
              rw [if_neg]
              intro hsome
              have hup := xoxcSearch_isSome_of_infix
                (multipartTokenCapture_isInfix hm) hsome
              rw [h1] at hup
              cases hup
        · rw [if_neg c2]
    rw [hbr, h1]
    rfl

/-! ## Claim theorems: token capture (C1, C2) -/

/-- A 64-character lowercase-alphanumeric tail for concrete tokens. -/
def lower64 : String := "abcdefghijklmnopqrstuvwxyz0123456789abcdefghijklmnopqrstuvwxyz01"

/-- A request body whose `token` parameter contains a conforming core
followed by a stray uppercase character: `XOXC_TOKEN_REGEX.test` accepts
it (the regex is unanchored), so the pipeline captures the whole
non-conforming value. -/
def c1BadBody : String := "token=xoxc-1-2-3-" ++ lower64 ++ "Z&other=x"

def c1BadToken : String := "xoxc-1-2-3-" ++ lower64 ++ "Z"

/-- C1 (counterexample): the claim that every accepted token conforms to
the full token pattern fails: this body's token parameter merely contains
a match, the extractor returns the whole value, the anchored
spec pattern rejects it, and the interceptor still resolves with it. -/
theorem claim_C1_counterexample :
    extractTokenFromFormData c1BadBody = some c1BadToken ∧
    specTokenConforms c1BadToken = false ∧
    interceptAccepts (some c1BadBody) = some c1BadToken := by
  refine ⟨by decide, by decide, by decide⟩

/-- C1 (amended): every token the extractor returns contains a substring
matching `XOXC_TOKEN_REGEX` (the unanchored test the code applies);
`interceptSlackAuthWithCookies` resolves only with such a token that
moreover starts with `xoxc-`; and a sequence of bodies none of which
yields an acceptable token leaves the promise pending. -/
theorem claim_C1_amended_contains_match :
    (∀ (body t : String), extractTokenFromFormData body = some t →
      xoxcTest t = true) ∧
    (∀ (reqs : List (Option String)) (t : String),
      captureFirstToken reqs = some t →
      xoxcTest t = true ∧ "xoxc-".data.isPrefixOf t.data = true) ∧
    (∀ reqs : List (Option String),
      (∀ r ∈ reqs, interceptAccepts r = none) →
      captureFirstToken reqs = none) := by
  refine ⟨fun _ _ h => extract_some_test h, ?_, ?_⟩
  · intro reqs
    induction reqs with
    | nil => intro t h; cases h
    | cons r rs ih =>
        intro t h
        rw [captureFirstToken] at h
        cases ha : interceptAccepts r with
        | some t' =>
            rw [ha] at h; cases h
            unfold interceptAccepts at ha
            cases r with
            | none => cases ha
            | some fd =>
                dsimp only at ha
                cases he : extractTokenFromFormData fd with
                | none => rw [he] at ha; cases ha
                | some t0 =>
                    rw [he] at ha; dsimp only at ha
                    by_cases hsw : "xoxc-".data.isPrefixOf t0.data = true
                    · rw [if_pos hsw] at ha
                      cases ha
                      exact ⟨extract_some_test he, hsw⟩
                    · rw [if_neg hsw] at ha; cases ha
        | none =>
            rw [ha] at h
            exact ih t h
  · intro reqs hall
    induction reqs with
    | nil => rfl
    | cons r rs ih =>
        rw [captureFirstToken, hall r (List.mem_cons_self r rs)]
        exact ih (fun x hx => hall x (List.mem_cons_of_mem r hx))

theorem claim_C1_amended_witness :
    xoxcTest ("xoxc-1-2-3-" ++ lower64) = true :=
  claim_C1_amended_contains_match.1 ("token=xoxc-1-2-3-" ++ lower64)
    ("xoxc-1-2-3-" ++ lower64) (by decide)

/-- The spec's URL-encoded example body and its token. -/
def c2UrlBody : String := "token=xoxc-1-2-3-" ++ lower64 ++ "&other=x"

def c2UrlToken : String := "xoxc-1-2-3-" ++ lower64

/-- A multipart body with a `name="token"` part holding a matching value. -/
def c2MultiBody : String :=
  "Content-Disposition: form-data; name=\x22token\x22\r\n\r\nxoxc-9-8-7-" ++
    lower64 ++ "\r\n--boundary"

def c2MultiToken : String := "xoxc-9-8-7-" ++ lower64

/-- C2: the URL-encoded example returns exactly the token substring; the
multipart example returns the part's value; and any body containing no
matching pattern anywhere (neither in the raw body nor in its decoded
`token` parameter) returns `none` — the embedding is a total function,
so no exception can escape. -/
theorem claim_C2_extractor_cases :
    extractTokenFromFormData c2UrlBody = some c2UrlToken ∧
    extractTokenFromFormData c2MultiBody = some c2MultiToken ∧
    (∀ body : String, noTokenAnywhere body = true →
      extractTokenFromFormData body = none) :=
  ⟨by decide, by decide, fun _ h => noTokenAnywhere_extract_none h⟩

theorem claim_C2_witness :
    extractTokenFromFormData "a=b&c=d" = none :=
  claim_C2_extractor_cases.2.2 "a=b&c=d" (by decide)

end PW
